import Mathlib

/-!
Verification of the BanSync replication core (`src/index.ts`) against its
natural-language specification.

The TypeScript source is shallowly embedded: the global `processingBans`
`Map<string, number>` becomes an association list threaded explicitly through
the functions that mutate it; `Date.now()` is a `Nat` parameter held fixed
across one handler run (the inter-write delays are irrelevant to the
properties proved here); remote Discord state (guild membership of the bot,
its ban permission, each guild's ban list, and whether a gateway write throws)
is a `World` value; a thrown gateway error is the corresponding `Option`
field being `some message`.  Gateway ban/unban calls are recorded as explicit
write-attempt lists so that "no write is issued" is a statement about the
embedding's output.
-/

namespace BanSync

/-- Association-list lookup mirroring `Map.get`. -/
def assocGet {α : Type} (m : List (String × α)) (k : String) : Option α :=
  match m with
  | [] => none
  | p :: rest => if p.fst == k then some p.snd else assocGet rest k

/-- Association-list update mirroring `Map.set`: replace in place if the key
exists, append otherwise. -/
def assocSet {α : Type} (m : List (String × α)) (k : String) (v : α) :
    List (String × α) :=
  match m with
  | [] => [(k, v)]
  | p :: rest => if p.fst == k then (k, v) :: rest else p :: assocSet rest k v

/-- Association-list removal mirroring `Map.delete`. -/
def assocDelete {α : Type} (m : List (String × α)) (k : String) :
    List (String × α) :=
  match m with
  | [] => []
  | p :: rest => if p.fst == k then assocDelete rest k else p :: assocDelete rest k

/-- Prefix test on strings via their character lists (the embedding of
`String.prototype.startsWith`). -/
def strStartsWith (s pre : String) : Bool :=
  pre.data.isPrefixOf s.data

/-- The sentinel prefix marking a ban reason as sync-originated
(`'[BanSync]'` in the source). -/
def syncTag : String := "[BanSync]"

/-- `BAN_PROCESSING_TIMEOUT = 30000` (source line 34): lock TTL in ms. -/
def BAN_PROCESSING_TIMEOUT : Nat := 30000

/-- The in-memory `processingBans` map: key string to acquisition timestamp. -/
abbrev ProcessingBans := List (String × Nat)

/-- `getBanKey` (source lines 38-40). -/
def getBanKey (userId guildId : String) : String :=
  userId ++ "-" ++ guildId

/-- `isBanProcessing` (source lines 43-56).  Returns the boolean answer and
the possibly-updated map, since an expired entry is deleted as a side effect.
`Date.now()` is the `now` parameter; JS computes `now - timestamp` on numbers,
and a clock that went backwards yields a negative difference there, which is
not `> TIMEOUT`, matching truncated `Nat` subtraction here. -/
def isBanProcessing (now : Nat) (m : ProcessingBans) (userId guildId : String) :
    Bool × ProcessingBans :=
  let key := getBanKey userId guildId
  match assocGet m key with
  | none => (false, m)
  | some timestamp =>
    if now - timestamp > BAN_PROCESSING_TIMEOUT then (false, assocDelete m key)
    else (true, m)

/-- `markBanProcessing` (source lines 59-62). -/
def markBanProcessing (now : Nat) (m : ProcessingBans) (userId guildId : String) :
    ProcessingBans :=
  assocSet m (getBanKey userId guildId) now

/-- `unmarkBanProcessing` (source lines 65-68). -/
def unmarkBanProcessing (m : ProcessingBans) (userId guildId : String) :
    ProcessingBans :=
  assocDelete m (getBanKey userId guildId)

/-- A live (non-expired) token exists for `(userId, guildId)`: an entry is
present and its age is within the TTL.  This is the specification-side
predicate the lock claims quantify over. -/
def liveToken (now : Nat) (m : ProcessingBans) (userId guildId : String) : Bool :=
  match assocGet m (getBanKey userId guildId) with
  | none => false
  | some timestamp => decide (now - timestamp ≤ BAN_PROCESSING_TIMEOUT)

/-- The spec's `tryAcquire(subject, node)`: the check-then-mark sequence the
source performs at lines 605-617 and 750-762 (`isBanProcessing` followed by
`markBanProcessing` when free). -/
def tryAcquire (now : Nat) (m : ProcessingBans) (userId guildId : String) :
    Bool × ProcessingBans :=
  let check := isBanProcessing now m userId guildId
  if check.fst then (false, check.snd)
  else (true, markBanProcessing now check.snd userId guildId)

/-- One entry of `servers.json` (`ServerConfig`, source lines 80-84). -/
structure ServerConfig where
  id : String
  name : String
  logChannelId : Option String
deriving DecidableEq, Repr

/-- One remote ban record as Discord reports it: the banned user's id and tag
and the stored audit reason (`null` when absent). -/
structure RemoteBan where
  userId : String
  userTag : String
  reason : Option String
deriving DecidableEq, Repr

/-- The observable state of one guild the bot is in.  `banFails` /
`unbanFails` being `some msg` means `guild.members.ban` / `guild.members.unban`
throws with message `msg`; `listBansFails` means `guild.bans.fetch()` (the
full-list query) throws.  The bot-member fetch used for the permission check
is modeled as succeeding, its answer being `hasBanPerm`. -/
structure GuildState where
  hasBanPerm : Bool
  bans : List RemoteBan
  listBansFails : Bool
  banFails : Option String
  unbanFails : Option String
deriving DecidableEq, Repr

/-- The world one handler run observes: the configured server list, the guilds
the bot is a member of (`client.guilds.cache`; absence from this list is the
`!guild` branch), the current `processingBans` map, and `Date.now()`. -/
structure World where
  servers : List ServerConfig
  guilds : List (String × GuildState)
  locks : ProcessingBans
  now : Nat
deriving DecidableEq, Repr

/-- `client.guilds.cache.get(id)` together with that guild's observable state. -/
def guildLookup (w : World) (id : String) : Option GuildState :=
  assocGet w.guilds id

/-- `guild.bans.fetch(userId).catch(() => null)`: the single-record ban query,
`none` both when the user is not banned and when the fetch rejects. -/
def fetchBan (g : GuildState) (userId : String) : Option RemoteBan :=
  g.bans.find? (fun b => b.userId == userId)

/-- `serverMap.get(id)` where `serverMap = new Map(servers.map(s => [s.id, s]))`
(source lines 143-145): with duplicate ids the last entry wins. -/
def serverMapGet (servers : List ServerConfig) (id : String) : Option ServerConfig :=
  (servers.filter (fun s => s.id == id)).getLast?

/-- JS `x || d` on an optional string: `null`, `undefined` and `""` are all
falsy and yield the default. -/
def jsOrDefault (r : Option String) (d : String) : String :=
  match r with
  | none => d
  | some s => if s == "" then d else s

/-- JS `reason?.startsWith('[BanSync]')` used as a condition: a missing reason
is falsy. -/
def jsReasonTagged (r : Option String) : Bool :=
  match r with
  | none => false
  | some s => strStartsWith s syncTag

/-- An optional string used as a JS condition: `undefined` and the empty
string are falsy, any other string is truthy. -/
def jsTruthyStr (r : Option String) : Bool :=
  match r with
  | none => false
  | some s => !(s == "")

/-- `BanResult` (source lines 90-96). -/
structure BanResult where
  serverId : String
  serverName : String
  success : Bool
  alreadyBanned : Bool
  error : Option String
deriving DecidableEq, Repr

/-- `UnbanResult` (source lines 98-104). -/
structure UnbanResult where
  serverId : String
  serverName : String
  success : Bool
  wasNotBanned : Bool
  error : Option String
deriving DecidableEq, Repr

/-- A gateway ban-write attempt (`guild.members.ban(userId, {reason})`),
recorded whether or not the call throws. -/
structure BanWrite where
  guildId : String
  userId : String
  reason : String
deriving DecidableEq, Repr

/-- A gateway unban-write attempt (`guild.members.unban(userId, reason)`). -/
structure UnbanWrite where
  guildId : String
  userId : String
  reason : String
deriving DecidableEq, Repr

/-- The ban information the sync command carries per subject (the value type
of `allBans`, source line 443). -/
structure BanInfo where
  userId : String
  userTag : String
  sourceServerId : String
  sourceServerName : String
  reason : String
deriving DecidableEq, Repr

/-- A `guildBanAdd` gateway event: the banned user and the guild it fired in. -/
structure BanEvent where
  userId : String
  guildId : String
deriving DecidableEq, Repr

/-- Accumulator for the per-server fan-out loops: results in order, the
threaded `processingBans` map, and the ban-write attempts made so far. -/
structure SyncAcc where
  results : List BanResult
  locks : ProcessingBans
  writes : List BanWrite
deriving DecidableEq, Repr

/-- One iteration of the `syncBanToAllServers` loop body (source lines
562-651) for configured server `cfg`: the produced `BanResult`, the updated
lock map, and the ban-write attempt if one was made. -/
def syncStepOutcome (w : World) (info : BanInfo) (locks : ProcessingBans)
    (cfg : ServerConfig) : BanResult × ProcessingBans × Option BanWrite :=
  match guildLookup w cfg.id with
  | none => (⟨cfg.id, cfg.name, false, false, some "Bot not in server"⟩, locks, none)
  | some g =>
    if !g.hasBanPerm then
      (⟨cfg.id, cfg.name, false, false, some "Missing Permissions"⟩, locks, none)
    else if (fetchBan g info.userId).isSome then
      (⟨cfg.id, cfg.name, true, true, none⟩, locks, none)
    else
      let check := isBanProcessing w.now locks info.userId cfg.id
      if check.fst then
        (⟨cfg.id, cfg.name, true, true, none⟩, check.snd, none)
      else
        let locks2 := markBanProcessing w.now check.snd info.userId cfg.id
        let syncReason :=
          syncTag ++ (" Originally banned in " ++ info.sourceServerName
            ++ " | Reason: " ++ info.reason)
        match g.banFails with
        | none =>
          (⟨cfg.id, cfg.name, true, false, none⟩, locks2,
            some ⟨cfg.id, info.userId, syncReason⟩)
        | some msg =>
          (⟨cfg.id, cfg.name, false, false, some msg⟩,
            unmarkBanProcessing locks2 info.userId cfg.id,
            some ⟨cfg.id, info.userId, syncReason⟩)

/-- Folding `syncStepOutcome` over the accumulator. -/
def syncServerStep (w : World) (info : BanInfo) (acc : SyncAcc)
    (cfg : ServerConfig) : SyncAcc :=
  let out := syncStepOutcome w info acc.locks cfg
  ⟨acc.results ++ [out.1], out.2.1, acc.writes ++ out.2.2.toList⟩

/-- `syncBanToAllServers` (source lines 553-654): fan one subject's ban out to
every configured server in registry order. -/
def syncBanToAllServers (w : World) (info : BanInfo) : SyncAcc :=
  w.servers.foldl (syncServerStep w info) ⟨[], w.locks, []⟩

/-- The reason the `guildBanAdd` handler recovers for the event (source lines
675-681): the source guild's stored reason, with `'No reason provided'` both
when the fetch throws and when the stored reason is falsy. -/
def banReasonOf (w : World) (ev : BanEvent) : String :=
  match guildLookup w ev.guildId with
  | none => "No reason provided"
  | some g =>
    match fetchBan g ev.userId with
    | none => "No reason provided"
    | some b => jsOrDefault b.reason "No reason provided"

/-- One iteration of the `guildBanAdd` fan-out loop body (source lines
695-796), which differs from the sync loop by the origin-guild branch placed
between the cache lookup and the permission check. -/
def handlerStepOutcome (w : World) (ev : BanEvent) (sourceName banReason : String)
    (locks : ProcessingBans) (cfg : ServerConfig) :
    BanResult × ProcessingBans × Option BanWrite :=
  match guildLookup w cfg.id with
  | none => (⟨cfg.id, cfg.name, false, false, some "Bot not in server"⟩, locks, none)
  | some g =>
    if cfg.id == ev.guildId then
      (⟨cfg.id, cfg.name, true, false, none⟩, locks, none)
    else if !g.hasBanPerm then
      (⟨cfg.id, cfg.name, false, false, some "Missing Permissions"⟩, locks, none)
    else if (fetchBan g ev.userId).isSome then
      (⟨cfg.id, cfg.name, true, true, none⟩, locks, none)
    else
      let check := isBanProcessing w.now locks ev.userId cfg.id
      if check.fst then
        (⟨cfg.id, cfg.name, true, true, none⟩, check.snd, none)
      else
        let locks2 := markBanProcessing w.now check.snd ev.userId cfg.id
        let syncReason :=
          syncTag ++ (" Banned in " ++ sourceName ++ " | Reason: " ++ banReason)
        match g.banFails with
        | none =>
          (⟨cfg.id, cfg.name, true, false, none⟩, locks2,
            some ⟨cfg.id, ev.userId, syncReason⟩)
        | some msg =>
          (⟨cfg.id, cfg.name, false, false, some msg⟩,
            unmarkBanProcessing locks2 ev.userId cfg.id,
            some ⟨cfg.id, ev.userId, syncReason⟩)

/-- Folding `handlerStepOutcome` over the accumulator. -/
def handlerServerStep (w : World) (ev : BanEvent) (sourceName banReason : String)
    (acc : SyncAcc) (cfg : ServerConfig) : SyncAcc :=
  let out := handlerStepOutcome w ev sourceName banReason acc.locks cfg
  ⟨acc.results ++ [out.1], out.2.1, acc.writes ++ out.2.2.toList⟩

/-- What one `guildBanAdd` handler run produced: `results = none` means the
handler returned before building the outcome list (and hence before the
report), `published` is whether `sendBanReportToAll` was reached, `writes`
are the gateway ban attempts issued. -/
structure HandlerOutput where
  results : Option (List BanResult)
  locks : ProcessingBans
  writes : List BanWrite
  published : Bool
deriving DecidableEq, Repr

/-- The `guildBanAdd` event handler (source lines 656-822): the
non-configured-guild guard, the two loop-prevention guards (live lock on
`(user, sourceGuild)`, then the sync-tagged reason), then the fan-out loop. -/
def guildBanAdd (w : World) (ev : BanEvent) : HandlerOutput :=
  match serverMapGet w.servers ev.guildId with
  | none => ⟨none, w.locks, [], false⟩
  | some sourceServer =>
    let check := isBanProcessing w.now w.locks ev.userId ev.guildId
    if check.fst then ⟨none, check.snd, [], false⟩
    else
      let banReason := banReasonOf w ev
      if strStartsWith banReason syncTag then ⟨none, check.snd, [], false⟩
      else
        let acc := w.servers.foldl
          (handlerServerStep w ev sourceServer.name banReason) ⟨[], check.snd, []⟩
        ⟨some acc.results, acc.locks, acc.writes, true⟩

/-- The `/^\d{17,19}$/` user-id validation (source line 281). -/
def validUserIdFormat (s : String) : Bool :=
  decide (17 ≤ s.data.length) && decide (s.data.length ≤ 19)
    && s.data.all (fun c => c.isDigit)

/-- Accumulator for the unban loop: results in order and the unban-write
attempts made so far (the unban path never touches `processingBans`). -/
structure UnbanAcc where
  results : List UnbanResult
  writes : List UnbanWrite
deriving DecidableEq, Repr

/-- One iteration of the `handleUnbanCommand` loop body (source lines
299-364) for configured server `cfg`. -/
def unbanStepOutcome (w : World) (userId reason requesterTag : String)
    (cfg : ServerConfig) : UnbanResult × Option UnbanWrite :=
  match guildLookup w cfg.id with
  | none => (⟨cfg.id, cfg.name, false, false, some "Bot not in server"⟩, none)
  | some g =>
    if !g.hasBanPerm then
      (⟨cfg.id, cfg.name, false, false, some "Missing Permissions"⟩, none)
    else
      match fetchBan g userId with
      | none => (⟨cfg.id, cfg.name, true, true, none⟩, none)
      | some _ =>
        let auditReason :=
          "[BanSync Unban] " ++ reason ++ " | Requested by " ++ requesterTag
        match g.unbanFails with
        | none =>
          (⟨cfg.id, cfg.name, true, false, none⟩, some ⟨cfg.id, userId, auditReason⟩)
        | some msg =>
          (⟨cfg.id, cfg.name, false, false, some msg⟩,
            some ⟨cfg.id, userId, auditReason⟩)

/-- Folding `unbanStepOutcome` over the accumulator. -/
def unbanServerStep (w : World) (userId reason requesterTag : String)
    (acc : UnbanAcc) (cfg : ServerConfig) : UnbanAcc :=
  let out := unbanStepOutcome w userId reason requesterTag cfg
  ⟨acc.results ++ [out.1], acc.writes ++ out.2.toList⟩

/-- The per-server retraction loop of `handleUnbanCommand` (source lines
296-364). -/
def unbanRun (w : World) (userId reason requesterTag : String) : UnbanAcc :=
  w.servers.foldl (unbanServerStep w userId reason requesterTag) ⟨[], []⟩

/-- How `handleUnbanCommand` replied to the invoker. -/
inductive UnbanReply where
  | permissionError
  | invalidFormat
  | report (results : List UnbanResult)
deriving DecidableEq, Repr

/-- `handleUnbanCommand` (source lines 267-417): invoker permission gate,
user-id format validation, then the retraction loop.  Returns the reply and
the gateway unban attempts issued. -/
def handleUnbanCommand (w : World) (memberHasBanPerm : Bool) (userId : String)
    (reasonOpt : Option String) (requesterTag : String) :
    UnbanReply × List UnbanWrite :=
  if !memberHasBanPerm then (UnbanReply.permissionError, [])
  else if !validUserIdFormat userId then (UnbanReply.invalidFormat, [])
  else
    let reason := jsOrDefault reasonOpt "No reason provided"
    let acc := unbanRun w userId reason requesterTag
    (UnbanReply.report acc.results, acc.writes)

/-- The `BanInfo` entry the sync command stores for one observed ban record
(source lines 459-465). -/
def mkEntry (cfg : ServerConfig) (b : RemoteBan) : BanInfo :=
  ⟨b.userId, b.userTag, cfg.id, cfg.name, jsOrDefault b.reason "No reason provided"⟩

/-- Processing one observed ban record into the `allBans` union (source lines
453-466): skip sync-tagged records; otherwise store unless an entry with a
truthy reason is already present. -/
def addBanRecord (cfg : ServerConfig) (m : List (String × BanInfo))
    (b : RemoteBan) : List (String × BanInfo) :=
  if jsReasonTagged b.reason then m
  else
    match assocGet m b.userId with
    | none => assocSet m b.userId (mkEntry cfg b)
    | some existing =>
      if existing.reason == "" then assocSet m b.userId (mkEntry cfg b) else m

/-- The ban records one configured server contributes to the union: none when
the bot is not in the guild or the full-list fetch throws (source lines
446-447 and 468-470). -/
def guildRecordsFor (w : World) (cfg : ServerConfig) : List RemoteBan :=
  match guildLookup w cfg.id with
  | none => []
  | some g => if g.listBansFails then [] else g.bans

/-- Folding one configured server's ban list into the union (source lines
445-471, one iteration of the outer loop). -/
def collectServerBans (w : World) (m : List (String × BanInfo))
    (cfg : ServerConfig) : List (String × BanInfo) :=
  match guildLookup w cfg.id with
  | none => m
  | some g =>
    if g.listBansFails then m else g.bans.foldl (addBanRecord cfg) m

/-- The `allBans` union the sync command builds (source lines 443-471); its
entries are exactly the subjects later fanned out via `syncBanToAllServers`
(source lines 489-491), so each entry is one propagation origin. -/
def collectAllBans (w : World) : List (String × BanInfo) :=
  w.servers.foldl (collectServerBans w) []

/-- The specification-side scan: the first non-sync-tagged record for subject
`u`, reading servers in registry order and each contributing ban list in
iteration order. -/
def firstRecordFor (w : World) (u : String) : Option (ServerConfig × RemoteBan) :=
  w.servers.findSome? (fun cfg =>
    ((guildRecordsFor w cfg).find?
      (fun b => b.userId == u && !jsReasonTagged b.reason)).map (fun b => (cfg, b)))

/-- The sync command's stat classification of one subject's results (source
lines 496-504): an if/else-if chain over each result.  The error-bucket guard
`!result.success && result.error` (line 501) tests `result.error` for JS
truthiness, so a failure whose error message is the empty string falls into
no bucket. -/
def countSyncStats : List BanResult → Nat × Nat × Nat
  | [] => (0, 0, 0)
  | r :: rs =>
    let c := countSyncStats rs
    if r.success && !r.alreadyBanned then (c.1 + 1, c.2.1, c.2.2)
    else if r.alreadyBanned then (c.1, c.2.1 + 1, c.2.2)
    else if !r.success && jsTruthyStr r.error then (c.1, c.2.1, c.2.2 + 1)
    else c

/-- The unban command's counters (source lines 367-369): three filters over
the result list. -/
def unbanCounts (rs : List UnbanResult) : Nat × Nat × Nat :=
  (rs.countP (fun r => r.success && !r.wasNotBanned),
   rs.countP (fun r => r.wasNotBanned),
   rs.countP (fun r => !r.success))

/-- The event handler's success counter (source line 801): results with
`success && !alreadyBanned`, the classification of an applied write. -/
def handlerSuccessCount (rs : List BanResult) : Nat :=
  rs.countP (fun r => r.success && !r.alreadyBanned)

/-- `w` with every sync-tagged record removed from every guild's ban list. -/
def filterTaggedWorld (w : World) : World :=
  { w with guilds := w.guilds.map (fun p => (p.fst,
      { p.snd with bans := p.snd.bans.filter (fun b => !jsReasonTagged b.reason) })) }

/-- Union entries always carry a truthy (non-empty), non-sync-tagged reason. -/
def goodEntry (e : BanInfo) : Prop :=
  (e.reason == "") = false ∧ strStartsWith e.reason syncTag = false

/-- Invariant of the `allBans` union as it is built: every stored entry is
good, and each subject key occurs at most (and, when present, exactly) once. -/
def WFunion (m : List (String × BanInfo)) : Prop :=
  (∀ p ∈ m, goodEntry p.snd) ∧
  (∀ u, m.countP (fun p => p.fst == u) = if (assocGet m u).isSome then 1 else 0)

/-- Shape of the `BanResult`s the reconciliation fan-out constructs when no
gateway error carries an empty message: `alreadyBanned` entries are successes
and failures carry a JS-truthy (non-empty) error message. -/
def wfBanResult (r : BanResult) : Prop :=
  (r.alreadyBanned = true → r.success = true) ∧
  (r.success = false → jsTruthyStr r.error = true)

/-- Every `UnbanResult` the retraction loop constructs satisfies this shape:
`wasNotBanned` entries are successes. -/
def wfUnbanResult (r : UnbanResult) : Prop :=
  r.wasNotBanned = true → r.success = true

/-- Concrete fixture: configured server `Alpha`. -/
def cfgA : ServerConfig := ⟨"100", "Alpha", none⟩

/-- Concrete fixture: configured server `Beta`. -/
def cfgB : ServerConfig := ⟨"200", "Beta", none⟩

/-- Concrete fixture: guild state of `Alpha`, where the subject is banned
with reason `spam`. -/
def gA : GuildState := ⟨true, [⟨"123456789012345678", "target", some "spam"⟩], false, none, none⟩

/-- Concrete fixture: guild state of `Beta`, with an empty ban list. -/
def gB : GuildState := ⟨true, [], false, none, none⟩

/-- Concrete fixture: two-server world, no locks held. -/
def w0 : World := ⟨[cfgA, cfgB], [("100", gA), ("200", gB)], [], 100000⟩

/-- Concrete fixture: ban event for the subject in `Alpha`. -/
def ev0 : BanEvent := ⟨"123456789012345678", "100"⟩

/-- Concrete fixture: the subject's ban information with origin `Alpha`. -/
def info0 : BanInfo := ⟨"123456789012345678", "target", "100", "Alpha", "spam"⟩

/-- Concrete fixture: `w0` with a live processing token for the subject on
guild `100`, acquired 5 seconds ago. -/
def wLock : World := ⟨[cfgA, cfgB], [("100", gA), ("200", gB)],
  [("123456789012345678-100", 95000)], 100000⟩

/-- Concrete fixture: ban event arriving from a guild absent from the
configuration. -/
def ev9 : BanEvent := ⟨"123456789012345678", "999"⟩

/-- Concrete fixture: guild state of `Beta` where `guild.members.ban` throws
an `Error` whose `message` is the empty string. -/
def gBad : GuildState := ⟨true, [], false, some "", none⟩

/-- Concrete fixture: two-server world in which `Beta`'s ban write fails with
an empty error message. -/
def wBad : World := ⟨[cfgA, cfgB], [("100", gA), ("200", gBad)], [], 100000⟩

lemma assocGet_assocSet_self {α : Type} (m : List (String × α)) (k : String) (v : α) :
    assocGet (assocSet m k v) k = some v := by
  induction m with
  | nil => simp [assocGet, assocSet]
  | cons p rest ih =>
    by_cases h : (p.fst == k) = true
    · simp [assocGet, assocSet, h]
    · simp only [assocSet, h]
      simp [assocGet, h, ih]

lemma assocGet_assocDelete_self {α : Type} (m : List (String × α)) (k : String) :
    assocGet (assocDelete m k) k = none := by
  induction m with
  | nil => simp [assocGet, assocDelete]
  | cons p rest ih =>
    by_cases h : (p.fst == k) = true
    · simp [assocDelete, h, ih]
    · simp only [assocDelete, h]
      simp [assocGet, h, ih]

lemma assocGet_mem {α : Type} (m : List (String × α)) (u : String) (v : α)
    (h : assocGet m u = some v) : (u, v) ∈ m := by
  induction m with
  | nil => simp [assocGet] at h
  | cons p rest ih =>
    by_cases hp : (p.fst == u) = true
    · have hpu : p.fst = u := by simpa [beq_iff_eq] using hp
      have h' : some p.snd = some v := by simpa [assocGet, hp] using h
      have hv : p.snd = v := by injection h'
      have hpv : p = (u, v) := by
        cases p
        simp_all
      rw [← hpv]
      exact List.mem_cons_self p rest
    · have hp' : (p.fst == u) = false := by simpa using hp
      have h' : assocGet rest u = some v := by simpa [assocGet, hp'] using h
      exact List.mem_cons_of_mem p (ih h')

lemma isBanProcessing_fst_eq_liveToken (now : Nat) (m : ProcessingBans)
    (userId guildId : String) :
    (isBanProcessing now m userId guildId).fst = liveToken now m userId guildId := by
  unfold isBanProcessing liveToken
  rcases h : assocGet m (getBanKey userId guildId) with _ | t
  · simp [h]
  · by_cases ht : now - t > BAN_PROCESSING_TIMEOUT
    · simp [h, ht, Nat.not_le.mpr ht]
    · simp [h, ht, Nat.not_lt.mp ht]

lemma isPrefixOf_append_self (l m : List Char) : l.isPrefixOf (l ++ m) = true := by
  induction l with
  | nil => simp [List.isPrefixOf]
  | cons a l ih => simp [List.isPrefixOf, ih]

lemma strStartsWith_append_self (pre s : String) :
    strStartsWith (pre ++ s) pre = true := by
  simp only [strStartsWith, String.data_append]
  exact isPrefixOf_append_self pre.data s.data

/-- C4: `tryAcquire` on a key succeeds exactly when no live (age within the
30-second TTL) token exists for it, creating a token stamped `now` when it
does; a token acquired at `T` and never released no longer blocks any
`tryAcquire` at a time strictly greater than `T + TTL`; and while a live
token exists every further `tryAcquire` on the key fails. -/
theorem claim4_tryAcquire_cas (now : Nat) (m : ProcessingBans) (u g : String) :
    ((tryAcquire now m u g).fst = !liveToken now m u g) ∧
    ((tryAcquire now m u g).fst = true →
      assocGet (tryAcquire now m u g).snd (getBanKey u g) = some now) ∧
    (∀ T, T + BAN_PROCESSING_TIMEOUT < now →
      (tryAcquire now (markBanProcessing T m u g) u g).fst = true) ∧
    (liveToken now m u g = true → (tryAcquire now m u g).fst = false) := by
  have hfst := isBanProcessing_fst_eq_liveToken now m u g
  refine ⟨?_, ?_, ?_, ?_⟩
  · unfold tryAcquire
    cases hb : (isBanProcessing now m u g).fst
    · rw [hb] at hfst
      simp [hb, ← hfst]
    · rw [hb] at hfst
      simp [hb, ← hfst]
  · intro h
    unfold tryAcquire at h ⊢
    cases hb : (isBanProcessing now m u g).fst
    · simp only [hb]
      simp [markBanProcessing, assocGet_assocSet_self]
    · simp [hb] at h
  · intro T hT
    have hget : assocGet (markBanProcessing T m u g) (getBanKey u g) = some T := by
      simp [markBanProcessing, assocGet_assocSet_self]
    have hexp : BAN_PROCESSING_TIMEOUT < now - T := by omega
    unfold tryAcquire isBanProcessing
    simp [hget, hexp]
  · intro h
    unfold tryAcquire
    simp only []
    rw [hfst, h]
    simp

/-- Witness for C4 at a concrete key: a token stamped 0 no longer blocks an
acquisition at time 40000 (strictly past the TTL), and a fresh acquisition
records the acquisition time. -/
theorem claim4_witness :
    ((0 : Nat) + BAN_PROCESSING_TIMEOUT < 40000) ∧
    (tryAcquire 40000 (markBanProcessing 0 [] "1" "2") "1" "2").fst = true ∧
    assocGet (tryAcquire 40000 ([] : ProcessingBans) "1" "2").snd
      (getBanKey "1" "2") = some 40000 :=
  ⟨by decide,
   (claim4_tryAcquire_cas 40000 [] "1" "2").2.2.1 0 (by decide),
   (claim4_tryAcquire_cas 40000 [] "1" "2").2.1 (by decide)⟩

/-- C8: on a reachable node (bot present) with ban permission where the
subject is not currently banned, the retraction loop produces the
success-classified `wasNotBanned` outcome with no error and issues no
removal write. -/
theorem claim8_wasNotBanned_noop (w : World) (userId reason tag : String)
    (cfg : ServerConfig) (g : GuildState)
    (hg : guildLookup w cfg.id = some g) (hperm : g.hasBanPerm = true)
    (hnb : fetchBan g userId = none) :
    unbanStepOutcome w userId reason tag cfg =
      (⟨cfg.id, cfg.name, true, true, none⟩, none) := by
  unfold unbanStepOutcome
  simp [hg, hperm, hnb]

/-- Witness for C8: in the concrete world `w0`, server `Beta` never had the
subject banned, and the retraction step reports `wasNotBanned` with no write. -/
theorem claim8_witness :
    unbanStepOutcome w0 "123456789012345678" "No reason provided" "mod" cfgB =
      (⟨"200", "Beta", true, true, none⟩, none) :=
  claim8_wasNotBanned_noop w0 "123456789012345678" "No reason provided" "mod"
    cfgB gB (by decide) (by decide) (by decide)

/-- C9: a ban event from a guild absent from the configured registry makes
the handler return immediately: no outcome list, unchanged lock map, no ban
writes, no report. -/
theorem claim9_unconfigured_ignored (w : World) (ev : BanEvent)
    (h : serverMapGet w.servers ev.guildId = none) :
    guildBanAdd w ev = ⟨none, w.locks, [], false⟩ := by
  unfold guildBanAdd
  simp [h]

/-- Witness for C9: an event from unconfigured guild `999` in the concrete
world `w0` leaves everything untouched. -/
theorem claim9_witness :
    guildBanAdd w0 ev9 = ⟨none, w0.locks, [], false⟩ :=
  claim9_unconfigured_ignored w0 ev9 (by decide)

/-- C10 as stated is false: the invoker-permission gate precedes the id
validation, so an invoker without ban permission passing the malformed id
`"abc"` gets the permission error, not the invalid-format error. -/
theorem claim10_counterexample :
    validUserIdFormat "abc" = false ∧
    (handleUnbanCommand w0 false "abc" none "mod").fst = UnbanReply.permissionError ∧
    UnbanReply.permissionError ≠ UnbanReply.invalidFormat := by
  refine ⟨by decide, by decide, by decide⟩

/-- C10 amended: for an invoker holding ban permission, a subject id that is
not 17-19 decimal digits draws the invalid-format reply and no gateway
unban attempt is made. -/
theorem claim10_invalid_id_rejected (w : World) (userId : String)
    (reasonOpt : Option String) (tag : String)
    (h : validUserIdFormat userId = false) :
    handleUnbanCommand w true userId reasonOpt tag = (UnbanReply.invalidFormat, []) := by
  unfold handleUnbanCommand
  simp [h]

/-- Witness for the amended C10 at the concrete malformed id `"abc"`. -/
theorem claim10_witness :
    handleUnbanCommand w0 true "abc" none "mod" = (UnbanReply.invalidFormat, []) :=
  claim10_invalid_id_rejected w0 "abc" none "mod" (by decide)

/-- C1 as stated is false: in the concrete world `w0` the propagation write
for server `Beta` succeeds, a ban-write attempt was made, and the
`ProcessingLock` token acquired at the start of the step is still present in
the lock map after the step completes (the code releases it only in the
failure branch). -/
theorem claim1_counterexample :
    (syncStepOutcome w0 info0 [] cfgB).1.success = true ∧
    (syncStepOutcome w0 info0 [] cfgB).2.2.isSome = true ∧
    assocGet (syncStepOutcome w0 info0 [] cfgB).2.1
      (getBanKey "123456789012345678" "200") = some 100000 := by
  refine ⟨by decide, by decide, by decide⟩

/-- C1 amended: after a propagation write attempt on a target node, the
token for `(subject, targetNode)` is released when the write failed; when
the write succeeded the token is retained in the map (stamped with the
acquisition time), left to expire via the TTL.  This holds for both the
reconciliation fan-out step and the event-handler fan-out step. -/
theorem claim1_token_released_on_failure_only (w : World) (info : BanInfo)
    (locks : ProcessingBans) (cfg : ServerConfig) (ev : BanEvent)
    (sourceName banReason : String) :
    ((syncStepOutcome w info locks cfg).2.2.isSome = true →
      ((syncStepOutcome w info locks cfg).1.success = false →
        assocGet (syncStepOutcome w info locks cfg).2.1
          (getBanKey info.userId cfg.id) = none) ∧
      ((syncStepOutcome w info locks cfg).1.success = true →
        assocGet (syncStepOutcome w info locks cfg).2.1
          (getBanKey info.userId cfg.id) = some w.now)) ∧
    ((handlerStepOutcome w ev sourceName banReason locks cfg).2.2.isSome = true →
      ((handlerStepOutcome w ev sourceName banReason locks cfg).1.success = false →
        assocGet (handlerStepOutcome w ev sourceName banReason locks cfg).2.1
          (getBanKey ev.userId cfg.id) = none) ∧
      ((handlerStepOutcome w ev sourceName banReason locks cfg).1.success = true →
        assocGet (handlerStepOutcome w ev sourceName banReason locks cfg).2.1
          (getBanKey ev.userId cfg.id) = some w.now)) := by
  constructor
  · rcases hg : guildLookup w cfg.id with _ | g
    · simp [syncStepOutcome, hg]
    · by_cases hperm : g.hasBanPerm = true
      · by_cases hban : (fetchBan g info.userId).isSome = true
        · simp [syncStepOutcome, hg, hperm, hban]
        · by_cases hchk : (isBanProcessing w.now locks info.userId cfg.id).fst = true
          · simp [syncStepOutcome, hg, hperm, hban, hchk]
          · rcases hf : g.banFails with _ | msg
            · intro _
              refine ⟨by simp [syncStepOutcome, hg, hperm, hban, hchk, hf], ?_⟩
              intro _
              simp [syncStepOutcome, hg, hperm, hban, hchk, hf,
                markBanProcessing, assocGet_assocSet_self]
            · intro _
              refine ⟨?_, by simp [syncStepOutcome, hg, hperm, hban, hchk, hf]⟩
              intro _
              simp [syncStepOutcome, hg, hperm, hban, hchk, hf,
                unmarkBanProcessing, assocGet_assocDelete_self]
      · simp [syncStepOutcome, hg, hperm]
  · rcases hg : guildLookup w cfg.id with _ | g
    · simp [handlerStepOutcome, hg]
    · by_cases horig : (cfg.id == ev.guildId) = true
      · simp [handlerStepOutcome, hg, horig]
      · by_cases hperm : g.hasBanPerm = true
        · by_cases hban : (fetchBan g ev.userId).isSome = true
          · simp [handlerStepOutcome, hg, horig, hperm, hban]
          · by_cases hchk : (isBanProcessing w.now locks ev.userId cfg.id).fst = true
            · simp [handlerStepOutcome, hg, horig, hperm, hban, hchk]
            · rcases hf : g.banFails with _ | msg
              · intro _
                refine ⟨by simp [handlerStepOutcome, hg, horig, hperm, hban, hchk, hf], ?_⟩
                intro _
                simp [handlerStepOutcome, hg, horig, hperm, hban, hchk, hf,
                  markBanProcessing, assocGet_assocSet_self]
              · intro _
                refine ⟨?_, by simp [handlerStepOutcome, hg, horig, hperm, hban, hchk, hf]⟩
                intro _
                simp [handlerStepOutcome, hg, horig, hperm, hban, hchk, hf,
                  unmarkBanProcessing, assocGet_assocDelete_self]
        · simp [handlerStepOutcome, hg, horig, hperm]

/-- Witness for the amended C1: in the concrete world `w0` the write for
`Beta` succeeds and the token remains, stamped 100000. -/
theorem claim1_witness :
    assocGet (syncStepOutcome w0 info0 [] cfgB).2.1
      (getBanKey info0.userId cfgB.id) = some w0.now :=
  ((claim1_token_released_on_failure_only w0 info0 [] cfgB ev0 "Alpha" "spam").1
    (by decide)).2 (by decide)

lemma handlerStepOutcome_serverId (w : World) (ev : BanEvent)
    (sourceName banReason : String) (locks : ProcessingBans) (cfg : ServerConfig) :
    (handlerStepOutcome w ev sourceName banReason locks cfg).1.serverId = cfg.id := by
  rcases hg : guildLookup w cfg.id with _ | g
  · simp [handlerStepOutcome, hg]
  · by_cases horig : (cfg.id == ev.guildId) = true
    · simp [handlerStepOutcome, hg, horig]
    · by_cases hperm : g.hasBanPerm = true
      · by_cases hban : (fetchBan g ev.userId).isSome = true
        · simp [handlerStepOutcome, hg, horig, hperm, hban]
        · by_cases hchk : (isBanProcessing w.now locks ev.userId cfg.id).fst = true
          · simp [handlerStepOutcome, hg, horig, hperm, hban, hchk]
          · rcases hf : g.banFails with _ | msg
            · simp [handlerStepOutcome, hg, horig, hperm, hban, hchk, hf]
            · simp [handlerStepOutcome, hg, horig, hperm, hban, hchk, hf]
      · simp [handlerStepOutcome, hg, horig, hperm]

lemma handlerStepOutcome_write (w : World) (ev : BanEvent)
    (sourceName banReason : String) (locks : ProcessingBans) (cfg : ServerConfig)
    (wr : BanWrite)
    (h : (handlerStepOutcome w ev sourceName banReason locks cfg).2.2 = some wr) :
    wr.guildId = cfg.id ∧ (cfg.id == ev.guildId) = false ∧
      wr.reason = syncTag ++ (" Banned in " ++ sourceName ++ " | Reason: " ++ banReason) := by
  rcases hg : guildLookup w cfg.id with _ | g
  · simp [handlerStepOutcome, hg] at h
  · by_cases horig : (cfg.id == ev.guildId) = true
    · simp [handlerStepOutcome, hg, horig] at h
    · by_cases hperm : g.hasBanPerm = true
      · by_cases hban : (fetchBan g ev.userId).isSome = true
        · simp [handlerStepOutcome, hg, horig, hperm, hban] at h
        · by_cases hchk : (isBanProcessing w.now locks ev.userId cfg.id).fst = true
          · simp [handlerStepOutcome, hg, horig, hperm, hban, hchk] at h
          · rcases hf : g.banFails with _ | msg
            · simp [handlerStepOutcome, hg, horig, hperm, hban, hchk, hf] at h
              refine ⟨?_, by simpa using horig, ?_⟩ <;> simp [← h]
            · simp [handlerStepOutcome, hg, horig, hperm, hban, hchk, hf] at h
              refine ⟨?_, by simpa using horig, ?_⟩ <;> simp [← h]
      · simp [handlerStepOutcome, hg, horig, hperm] at h

lemma handlerFold_writes_all (w : World) (ev : BanEvent)
    (sourceName banReason : String) (P : BanWrite → Bool)
    (hstep : ∀ locks cfg wr,
      (handlerStepOutcome w ev sourceName banReason locks cfg).2.2 = some wr →
        P wr = true) :
    ∀ (servers : List ServerConfig) (acc : SyncAcc), acc.writes.all P = true →
      (servers.foldl (handlerServerStep w ev sourceName banReason) acc).writes.all P
        = true := by
  intro servers
  induction servers with
  | nil => intro acc h; simpa using h
  | cons cfg rest ih =>
    intro acc h
    simp only [List.foldl_cons]
    apply ih
    simp only [handlerServerStep, List.all_append]
    refine (Bool.and_eq_true _ _).mpr ⟨h, ?_⟩
    rcases hout : (handlerStepOutcome w ev sourceName banReason acc.locks cfg).2.2
      with _ | wr
    · simp
    · simpa using hstep acc.locks cfg wr hout

lemma handlerFold_results_all (w : World) (ev : BanEvent)
    (sourceName banReason : String) (P : BanResult → Prop)
    (hstep : ∀ locks cfg, P (handlerStepOutcome w ev sourceName banReason locks cfg).1) :
    ∀ (servers : List ServerConfig) (acc : SyncAcc),
      (∀ r ∈ acc.results, P r) →
      ∀ r ∈ (servers.foldl (handlerServerStep w ev sourceName banReason) acc).results,
        P r := by
  intro servers
  induction servers with
  | nil => intro acc h; simpa using h
  | cons cfg rest ih =>
    intro acc h
    simp only [List.foldl_cons]
    apply ih
    intro r hr
    simp only [handlerServerStep, List.mem_append, List.mem_singleton] at hr
    rcases hr with hr | hr
    · exact h r hr
    · rw [hr]; exact hstep acc.locks cfg

/-- C2 as stated is false: in the concrete world `w0` the origin node
`Alpha` is reported with `success = true, alreadyBanned = false, error = none`
— the same classification as the applied write on `Beta` — so its outcome is
counted among the applied (success count 2) even though only one ban write
was issued; the code has no distinguishable `Skipped(origin)` outcome. -/
theorem claim2_counterexample :
    (guildBanAdd w0 ev0).results =
      some [⟨"100", "Alpha", true, false, none⟩, ⟨"200", "Beta", true, false, none⟩] ∧
    ((guildBanAdd w0 ev0).results.map handlerSuccessCount) = some 2 ∧
    (guildBanAdd w0 ev0).writes.length = 1 := by
  refine ⟨by decide, by decide, by decide⟩

/-- C2 amended: the event handler never issues a ban write to the origin
node, and (when the origin guild is reachable) reports for it
`success = true, alreadyBanned = false` with no error — the same
classification as `Applied`, so the origin's outcome is not distinguishable
from an applied write in the result list. -/
theorem claim2_origin_skipped_but_counted (w : World) (ev : BanEvent) :
    ((guildBanAdd w ev).writes.all (fun wr => wr.guildId != ev.guildId) = true) ∧
    ((guildLookup w ev.guildId).isSome = true →
      ∀ rs, (guildBanAdd w ev).results = some rs →
        ∀ r ∈ rs, r.serverId = ev.guildId →
          r.success = true ∧ r.alreadyBanned = false ∧ r.error = none) := by
  constructor
  · rcases hs : serverMapGet w.servers ev.guildId with _ | src
    · simp [guildBanAdd, hs]
    · by_cases hchk : (isBanProcessing w.now w.locks ev.userId ev.guildId).fst = true
      · simp [guildBanAdd, hs, hchk]
      · by_cases htag : strStartsWith (banReasonOf w ev) syncTag = true
        · simp [guildBanAdd, hs, hchk, htag]
        · have hrun : (guildBanAdd w ev).writes =
            (w.servers.foldl (handlerServerStep w ev src.name (banReasonOf w ev))
              ⟨[], (isBanProcessing w.now w.locks ev.userId ev.guildId).snd, []⟩).writes := by
            simp [guildBanAdd, hs, hchk, htag]
          rw [hrun]
          apply handlerFold_writes_all
          · intro locks cfg wr hw
            obtain ⟨hid, hne, _⟩ :=
              handlerStepOutcome_write w ev src.name (banReasonOf w ev) locks cfg wr hw
            simp [hid, hne]
            intro hcontra
            rw [hcontra] at hne
            simp at hne
          · simp
  · intro hor rs hrs r hr hser
    rcases hs : serverMapGet w.servers ev.guildId with _ | src
    · simp [guildBanAdd, hs] at hrs
    · by_cases hchk : (isBanProcessing w.now w.locks ev.userId ev.guildId).fst = true
      · simp [guildBanAdd, hs, hchk] at hrs
      · by_cases htag : strStartsWith (banReasonOf w ev) syncTag = true
        · simp [guildBanAdd, hs, hchk, htag] at hrs
        · have hrun : (guildBanAdd w ev).results =
            some (w.servers.foldl (handlerServerStep w ev src.name (banReasonOf w ev))
              ⟨[], (isBanProcessing w.now w.locks ev.userId ev.guildId).snd, []⟩).results := by
            simp [guildBanAdd, hs, hchk, htag]
          rw [hrun] at hrs
          obtain ⟨g, hg⟩ := Option.isSome_iff_exists.mp hor
          have hP : ∀ locks cfg, ((handlerStepOutcome w ev src.name
              (banReasonOf w ev) locks cfg).1.serverId = ev.guildId →
              (handlerStepOutcome w ev src.name (banReasonOf w ev) locks cfg).1.success = true ∧
              (handlerStepOutcome w ev src.name (banReasonOf w ev) locks cfg).1.alreadyBanned = false ∧
              (handlerStepOutcome w ev src.name (banReasonOf w ev) locks cfg).1.error = none) := by
            intro locks cfg
            by_cases hc : cfg.id = ev.guildId
            · have hg' : guildLookup w cfg.id = some g := by rw [hc]; exact hg
              have horig : (cfg.id == ev.guildId) = true := by simp [hc]
              intro _
              refine ⟨?_, ?_, ?_⟩ <;> simp [handlerStepOutcome, hg', horig]
            · intro hser'
              rw [handlerStepOutcome_serverId] at hser'
              exact absurd hser' hc
          have := handlerFold_results_all w ev src.name (banReasonOf w ev)
            (fun r => r.serverId = ev.guildId →
              r.success = true ∧ r.alreadyBanned = false ∧ r.error = none)
            hP w.servers
            ⟨[], (isBanProcessing w.now w.locks ev.userId ev.guildId).snd, []⟩
            (by simp)
          have hrs' := Option.some.inj hrs
          exact this r (by rw [hrs']; exact hr) hser

/-- Witness for the amended C2 in the concrete world `w0`: the origin guild
is reachable and the origin's reported result is the Applied-shaped triple. -/
theorem claim2_witness :
    (⟨"100", "Alpha", true, false, none⟩ : BanResult).success = true ∧
    (⟨"100", "Alpha", true, false, none⟩ : BanResult).alreadyBanned = false ∧
    (⟨"100", "Alpha", true, false, none⟩ : BanResult).error = none :=
  (claim2_origin_skipped_but_counted w0 ev0).2 (by decide)
    [⟨"100", "Alpha", true, false, none⟩, ⟨"200", "Beta", true, false, none⟩]
    (by decide) ⟨"100", "Alpha", true, false, none⟩ (by decide) (by decide)

/-- C3: when a live `ProcessingLock` token is held for
`(subject, originNode)`, or the event's recovered reason carries the
`[BanSync]` tag, the `guildBanAdd` handler issues no ban write and produces
no outcome list; moreover every ban write the handler ever issues carries a
sync-tagged reason, so a node echoing every applied ban as a new event with
its recorded reason is rejected by the reason guard (and, while the retained
token lives, by the lock guard): one fan-out round causes no further writes. -/
theorem claim3_ingestion_guard (w : World) (ev : BanEvent) :
    ((liveToken w.now w.locks ev.userId ev.guildId = true ∨
        strStartsWith (banReasonOf w ev) syncTag = true) →
      (guildBanAdd w ev).writes = [] ∧ (guildBanAdd w ev).results = none) ∧
    ((guildBanAdd w ev).writes.all
      (fun wr => strStartsWith wr.reason syncTag) = true) := by
  constructor
  · intro hguard
    rcases hs : serverMapGet w.servers ev.guildId with _ | src
    · simp [guildBanAdd, hs]
    · by_cases hchk : (isBanProcessing w.now w.locks ev.userId ev.guildId).fst = true
      · simp [guildBanAdd, hs, hchk]
      · rcases hguard with hlive | htag
        · rw [isBanProcessing_fst_eq_liveToken] at hchk
          exact absurd hlive hchk
        · simp [guildBanAdd, hs, hchk, htag]
  · rcases hs : serverMapGet w.servers ev.guildId with _ | src
    · simp [guildBanAdd, hs]
    · by_cases hchk : (isBanProcessing w.now w.locks ev.userId ev.guildId).fst = true
      · simp [guildBanAdd, hs, hchk]
      · by_cases htag : strStartsWith (banReasonOf w ev) syncTag = true
        · simp [guildBanAdd, hs, hchk, htag]
        · have hrun : (guildBanAdd w ev).writes =
            (w.servers.foldl (handlerServerStep w ev src.name (banReasonOf w ev))
              ⟨[], (isBanProcessing w.now w.locks ev.userId ev.guildId).snd, []⟩).writes := by
            simp [guildBanAdd, hs, hchk, htag]
          rw [hrun]
          apply handlerFold_writes_all
          · intro locks cfg wr hw
            obtain ⟨_, _, hreason⟩ :=
              handlerStepOutcome_write w ev src.name (banReasonOf w ev) locks cfg wr hw
            rw [hreason]
            exact strStartsWith_append_self syncTag _
          · simp

/-- Witness for C3: in `wLock` a live token is held for the subject on the
origin guild, and the handler issues no writes and produces no outcome list. -/
theorem claim3_witness :
    liveToken wLock.now wLock.locks ev0.userId ev0.guildId = true ∧
    (guildBanAdd wLock ev0).writes = [] ∧ (guildBanAdd wLock ev0).results = none :=
  ⟨by decide, (claim3_ingestion_guard wLock ev0).1 (Or.inl (by decide))⟩

lemma syncStepOutcome_wf (w : World) (info : BanInfo) (locks : ProcessingBans)
    (cfg : ServerConfig) (hW : ∀ p ∈ w.guilds, p.snd.banFails ≠ some "") :
    wfBanResult (syncStepOutcome w info locks cfg).1 := by
  rcases hg : guildLookup w cfg.id with _ | g
  · have hres : (syncStepOutcome w info locks cfg).1 =
        ⟨cfg.id, cfg.name, false, false, some "Bot not in server"⟩ := by
      simp [syncStepOutcome, hg]
    rw [hres]
    exact ⟨by simp, fun _ => show jsTruthyStr (some "Bot not in server") = true by decide⟩
  · by_cases hperm : g.hasBanPerm = true
    · by_cases hban : (fetchBan g info.userId).isSome = true
      · simp [syncStepOutcome, hg, hperm, hban, wfBanResult]
      · by_cases hchk : (isBanProcessing w.now locks info.userId cfg.id).fst = true
        · simp [syncStepOutcome, hg, hperm, hban, hchk, wfBanResult]
        · rcases hf : g.banFails with _ | msg
          · simp [syncStepOutcome, hg, hperm, hban, hchk, hf, wfBanResult]
          · have hres : (syncStepOutcome w info locks cfg).1 =
                ⟨cfg.id, cfg.name, false, false, some msg⟩ := by
              simp [syncStepOutcome, hg, hperm, hban, hchk, hf]
            have hmem : (cfg.id, g) ∈ w.guilds :=
              assocGet_mem w.guilds cfg.id g (by simpa [guildLookup] using hg)
            have hne : msg ≠ "" := by
              intro hmsg
              apply hW (cfg.id, g) hmem
              rw [hf, hmsg]
            rw [hres]
            refine ⟨by simp, fun _ => ?_⟩
            simp [jsTruthyStr, beq_iff_eq, hne]
    · have hres : (syncStepOutcome w info locks cfg).1 =
          ⟨cfg.id, cfg.name, false, false, some "Missing Permissions"⟩ := by
        simp [syncStepOutcome, hg, hperm]
      rw [hres]
      exact ⟨by simp, fun _ => show jsTruthyStr (some "Missing Permissions") = true by decide⟩

lemma unbanStepOutcome_wf (w : World) (userId reason tag : String)
    (cfg : ServerConfig) : wfUnbanResult (unbanStepOutcome w userId reason tag cfg).1 := by
  rcases hg : guildLookup w cfg.id with _ | g
  · simp [unbanStepOutcome, hg, wfUnbanResult]
  · by_cases hperm : g.hasBanPerm = true
    · rcases hban : fetchBan g userId with _ | b
      · simp [unbanStepOutcome, hg, hperm, hban, wfUnbanResult]
      · rcases hf : g.unbanFails with _ | msg
        · simp [unbanStepOutcome, hg, hperm, hban, hf, wfUnbanResult]
        · simp [unbanStepOutcome, hg, hperm, hban, hf, wfUnbanResult]
    · simp [unbanStepOutcome, hg, hperm, wfUnbanResult]

lemma syncFold_length (w : World) (info : BanInfo) :
    ∀ (servers : List ServerConfig) (acc : SyncAcc),
      (servers.foldl (syncServerStep w info) acc).results.length
        = acc.results.length + servers.length := by
  intro servers
  induction servers with
  | nil => intro acc; simp
  | cons cfg rest ih =>
    intro acc
    simp only [List.foldl_cons]
    rw [ih (syncServerStep w info acc cfg)]
    simp [syncServerStep]
    omega

lemma syncFold_wf (w : World) (info : BanInfo)
    (hW : ∀ p ∈ w.guilds, p.snd.banFails ≠ some "") :
    ∀ (servers : List ServerConfig) (acc : SyncAcc),
      (∀ r ∈ acc.results, wfBanResult r) →
      ∀ r ∈ (servers.foldl (syncServerStep w info) acc).results, wfBanResult r := by
  intro servers
  induction servers with
  | nil => intro acc h; simpa using h
  | cons cfg rest ih =>
    intro acc h
    simp only [List.foldl_cons]
    apply ih (syncServerStep w info acc cfg)
    intro r hr
    simp only [syncServerStep, List.mem_append, List.mem_singleton] at hr
    rcases hr with hr | hr
    · exact h r hr
    · rw [hr]; exact syncStepOutcome_wf w info acc.locks cfg hW

lemma unbanFold_results (w : World) (userId reason tag : String) :
    ∀ (servers : List ServerConfig) (acc : UnbanAcc),
      ((servers.foldl (unbanServerStep w userId reason tag) acc).results.length
        = acc.results.length + servers.length) ∧
      ((∀ r ∈ acc.results, wfUnbanResult r) →
        ∀ r ∈ (servers.foldl (unbanServerStep w userId reason tag) acc).results,
          wfUnbanResult r) := by
  intro servers
  induction servers with
  | nil => intro acc; exact ⟨by simp, fun h => by simpa using h⟩
  | cons cfg rest ih =>
    intro acc
    simp only [List.foldl_cons]
    constructor
    · have := (ih (unbanServerStep w userId reason tag acc cfg)).1
      rw [this]
      simp [unbanServerStep]
      omega
    · intro h
      apply (ih (unbanServerStep w userId reason tag acc cfg)).2
      intro r hr
      simp only [unbanServerStep, List.mem_append, List.mem_singleton] at hr
      rcases hr with hr | hr
      · exact h r hr
      · rw [hr]; exact unbanStepOutcome_wf w userId reason tag cfg

lemma countSyncStats_partition :
    ∀ rs : List BanResult, (∀ r ∈ rs, wfBanResult r) →
      (countSyncStats rs).1 + (countSyncStats rs).2.1 + (countSyncStats rs).2.2
        = rs.length := by
  intro rs
  induction rs with
  | nil => intro _; simp [countSyncStats]
  | cons r rest ih =>
    intro h
    have hr : wfBanResult r := h r (List.mem_cons_self r rest)
    have htail := ih (fun x hx => h x (List.mem_cons_of_mem r hx))
    obtain ⟨h1, h2⟩ := hr
    simp only [countSyncStats]
    cases hs : r.success
    · have herr := h2 hs
      cases ha : r.alreadyBanned
      · simp [hs, ha, herr]
        omega
      · exact absurd (h1 ha) (by simp [hs])
    · cases ha : r.alreadyBanned
      · simp [hs, ha]
        omega
      · simp [hs, ha]
        omega

lemma unbanCounts_partition :
    ∀ rs : List UnbanResult, (∀ r ∈ rs, wfUnbanResult r) →
      (unbanCounts rs).1 + (unbanCounts rs).2.1 + (unbanCounts rs).2.2
        = rs.length := by
  intro rs
  induction rs with
  | nil => intro _; simp [unbanCounts]
  | cons r rest ih =>
    intro h
    have hr : wfUnbanResult r := h r (List.mem_cons_self r rest)
    have htail := ih (fun x hx => h x (List.mem_cons_of_mem r hx))
    simp only [unbanCounts, List.countP_cons] at htail ⊢
    cases hs : r.success
    · have hw : r.wasNotBanned = false := by
        cases hwnb : r.wasNotBanned
        · rfl
        · exact absurd (hr hwnb) (by simp [hs])
      simp [hs, hw]
      omega
    · cases hwnb : r.wasNotBanned
      · simp [hs, hwnb]
        omega
      · simp [hs, hwnb]
        omega

/-- C7 as stated is false: in `wBad` the ban write on `Beta` fails with an
empty error message, and the error-bucket guard (source line 501) tests
`result.error` for JS truthiness, so that failure is counted in no bucket:
the sync counters sum to 1 while 2 nodes were processed. -/
theorem claim7_counterexample :
    (countSyncStats (syncBanToAllServers wBad info0).results).1
      + (countSyncStats (syncBanToAllServers wBad info0).results).2.1
      + (countSyncStats (syncBanToAllServers wBad info0).results).2.2 = 1 ∧
    (syncBanToAllServers wBad info0).results.length = 2 := by
  refine ⟨by decide, by decide⟩

/-- C7 amended: on every outcome list produced by a reconciliation fan-out
in which no gateway ban error carries an empty message (so every failure's
recorded error is JS-truthy), the sync counters (applied / already-banned /
error) partition the list — they sum to its length, which always equals the
number of configured nodes processed; a failure with an empty error message
falls outside every bucket.  The retraction run's counters (unbanned /
not-banned / error) partition their list unconditionally. -/
theorem claim7_counters_partition (w : World) (info : BanInfo)
    (userId reason tag : String) :
    ((∀ p ∈ w.guilds, p.snd.banFails ≠ some "") →
      (countSyncStats (syncBanToAllServers w info).results).1
        + (countSyncStats (syncBanToAllServers w info).results).2.1
        + (countSyncStats (syncBanToAllServers w info).results).2.2
        = (syncBanToAllServers w info).results.length) ∧
    ((syncBanToAllServers w info).results.length = w.servers.length) ∧
    ((unbanCounts (unbanRun w userId reason tag).results).1
      + (unbanCounts (unbanRun w userId reason tag).results).2.1
      + (unbanCounts (unbanRun w userId reason tag).results).2.2
      = (unbanRun w userId reason tag).results.length) ∧
    ((unbanRun w userId reason tag).results.length = w.servers.length) := by
  refine ⟨?_, ?_, ?_, ?_⟩
  · intro hW
    exact countSyncStats_partition _
      (syncFold_wf w info hW w.servers ⟨[], w.locks, []⟩ (by simp))
  · have := syncFold_length w info w.servers ⟨[], w.locks, []⟩
    simpa [syncBanToAllServers] using this
  · exact unbanCounts_partition _
      ((unbanFold_results w userId reason tag w.servers ⟨[], []⟩).2 (by simp))
  · have := (unbanFold_results w userId reason tag w.servers ⟨[], []⟩).1
    simpa [unbanRun] using this

/-- Witness for the amended C7: in the concrete world `w0` no gateway error
message is empty, and the sync counters sum to the processed node count. -/
theorem claim7_witness :
    (countSyncStats (syncBanToAllServers w0 info0).results).1
      + (countSyncStats (syncBanToAllServers w0 info0).results).2.1
      + (countSyncStats (syncBanToAllServers w0 info0).results).2.2
      = (syncBanToAllServers w0 info0).results.length :=
  (claim7_counters_partition w0 info0 "123456789012345678" "No reason provided"
    "mod").1 (by decide)

lemma assocGet_assocSet {α : Type} (m : List (String × α)) (k u : String) (v : α) :
    assocGet (assocSet m k v) u = if k == u then some v else assocGet m u := by
  induction m with
  | nil => simp [assocGet, assocSet]
  | cons p rest ih =>
    by_cases hp : (p.fst == k) = true
    · have hpk : p.fst = k := by simpa [beq_iff_eq] using hp
      by_cases hku : (k == u) = true
      · simp [assocSet, hp, assocGet, hku]
      · have hpu : (p.fst == u) = false := by
          rw [hpk]
          simpa using hku
        simp [assocSet, hp, assocGet, hku, hpu]
    · by_cases hku : (k == u) = true
      · have hku' : k = u := by simpa [beq_iff_eq] using hku
        have hpu : (p.fst == u) = false := by
          rw [← hku']
          simpa using hp
        simp [assocSet, hp, assocGet, hku, hpu, ih]
      · simp [assocSet, hp, assocGet, ih, hku]

lemma assocSet_of_absent {α : Type} (m : List (String × α)) (k : String) (v : α)
    (h : assocGet m k = none) : assocSet m k v = m ++ [(k, v)] := by
  induction m with
  | nil => simp [assocSet]
  | cons p rest ih =>
    by_cases hp : (p.fst == k) = true
    · simp [assocGet, hp] at h
    · have hp' : (p.fst == k) = false := by simpa using hp
      have h' : assocGet rest k = none := by simpa [assocGet, hp'] using h
      simp [assocSet, hp', ih h']

lemma goodEntry_mkEntry (cfg : ServerConfig) (b : RemoteBan)
    (h : jsReasonTagged b.reason = false) : goodEntry (mkEntry cfg b) := by
  rcases hb : b.reason with _ | s
  · constructor
    · simp [mkEntry, jsOrDefault, hb]
    · have hdef : (mkEntry cfg b).reason = "No reason provided" := by
        simp [mkEntry, jsOrDefault, hb]
      rw [hdef]
      decide
  · rw [hb] at h
    simp only [jsReasonTagged] at h
    by_cases hs : (s == "") = true
    · constructor
      · simp [mkEntry, jsOrDefault, hb, hs]
      · have hdef : (mkEntry cfg b).reason = "No reason provided" := by
          simp [mkEntry, jsOrDefault, hb, hs]
        rw [hdef]
        decide
    · have hs' : (s == "") = false := by simpa using hs
      constructor <;> simp [mkEntry, jsOrDefault, hb, hs', h]

lemma WFunion_nil : WFunion [] := by
  constructor
  · simp
  · intro u
    simp [assocGet]

lemma WFunion_goodEntry (m : List (String × BanInfo)) (u : String) (e : BanInfo)
    (hWF : WFunion m) (h : assocGet m u = some e) : goodEntry e :=
  hWF.1 _ (assocGet_mem m u e h)

lemma addBanRecord_eq_of_tagged (cfg : ServerConfig) (m : List (String × BanInfo))
    (b : RemoteBan) (htag : jsReasonTagged b.reason = true) :
    addBanRecord cfg m b = m := by
  simp [addBanRecord, htag]

lemma addBanRecord_eq_of_present (cfg : ServerConfig) (m : List (String × BanInfo))
    (b : RemoteBan) (existing : BanInfo) (hWF : WFunion m)
    (htag : jsReasonTagged b.reason = false)
    (hget : assocGet m b.userId = some existing) :
    addBanRecord cfg m b = m := by
  have hex : goodEntry existing := WFunion_goodEntry m b.userId existing hWF hget
  simp [addBanRecord, htag, hget, hex.1]

lemma addBanRecord_eq_of_absent (cfg : ServerConfig) (m : List (String × BanInfo))
    (b : RemoteBan) (htag : jsReasonTagged b.reason = false)
    (hget : assocGet m b.userId = none) :
    addBanRecord cfg m b = m ++ [(b.userId, mkEntry cfg b)] := by
  rw [addBanRecord]
  simp only [htag, Bool.false_eq_true, if_false, hget]
  exact assocSet_of_absent m b.userId (mkEntry cfg b) hget

lemma WFunion_addBanRecord (cfg : ServerConfig) (m : List (String × BanInfo))
    (b : RemoteBan) (hWF : WFunion m) : WFunion (addBanRecord cfg m b) := by
  obtain ⟨hgood, hcnt⟩ := hWF
  by_cases htag : jsReasonTagged b.reason = true
  · rw [addBanRecord_eq_of_tagged cfg m b htag]
    exact ⟨hgood, hcnt⟩
  · have htag' : jsReasonTagged b.reason = false := by simpa using htag
    rcases hget : assocGet m b.userId with _ | existing
    · rw [addBanRecord_eq_of_absent cfg m b htag' hget]
      constructor
      · intro p hp
        rcases List.mem_append.mp hp with hp | hp
        · exact hgood p hp
        · simp only [List.mem_singleton] at hp
          rw [hp]
          exact goodEntry_mkEntry cfg b htag'
      · intro u
        rw [List.countP_append]
        have hgetapp : assocGet (m ++ [(b.userId, mkEntry cfg b)]) u
            = if b.userId == u then some (mkEntry cfg b) else assocGet m u := by
          rw [← assocSet_of_absent m b.userId (mkEntry cfg b) hget,
            assocGet_assocSet]
        by_cases hu : (b.userId == u) = true
        · have hu' : b.userId = u := by simpa [beq_iff_eq] using hu
          have hnone : assocGet m u = none := by rw [← hu']; exact hget
          rw [hgetapp, if_pos hu]
          simp only [hcnt u, hnone]
          simp [hu]
        · have hu' : (b.userId == u) = false := by simpa using hu
          rw [hgetapp]
          simp [hu', hcnt u]
    · rw [addBanRecord_eq_of_present cfg m b existing ⟨hgood, hcnt⟩ htag' hget]
      exact ⟨hgood, hcnt⟩

lemma addBanRecord_assocGet_some (cfg : ServerConfig) (m : List (String × BanInfo))
    (b : RemoteBan) (u : String) (e : BanInfo) (hWF : WFunion m)
    (h : assocGet m u = some e) : assocGet (addBanRecord cfg m b) u = some e := by
  by_cases htag : jsReasonTagged b.reason = true
  · rw [addBanRecord_eq_of_tagged cfg m b htag]
    exact h
  · have htag' : jsReasonTagged b.reason = false := by simpa using htag
    rcases hget : assocGet m b.userId with _ | existing
    · rw [addBanRecord_eq_of_absent cfg m b htag' hget,
        ← assocSet_of_absent m b.userId (mkEntry cfg b) hget, assocGet_assocSet]
      have hne : (b.userId == u) = false := by
        by_cases hc : (b.userId == u) = true
        · have hc' : b.userId = u := by simpa [beq_iff_eq] using hc
          rw [hc'] at hget
          rw [hget] at h
          exact absurd h (by simp)
        · simpa using hc
      rw [if_neg (by simp [hne])]
      exact h
    · rw [addBanRecord_eq_of_present cfg m b existing hWF htag' hget]
      exact h

lemma addBanRecord_assocGet_none (cfg : ServerConfig) (m : List (String × BanInfo))
    (b : RemoteBan) (u : String) (hWF : WFunion m)
    (h : assocGet m u = none) : assocGet (addBanRecord cfg m b) u =
      if b.userId == u && !jsReasonTagged b.reason then some (mkEntry cfg b)
      else none := by
  by_cases htag : jsReasonTagged b.reason = true
  · rw [addBanRecord_eq_of_tagged cfg m b htag]
    simp [htag, h]
  · have htag' : jsReasonTagged b.reason = false := by simpa using htag
    rcases hget : assocGet m b.userId with _ | existing
    · rw [addBanRecord_eq_of_absent cfg m b htag' hget,
        ← assocSet_of_absent m b.userId (mkEntry cfg b) hget, assocGet_assocSet]
      by_cases hu : (b.userId == u) = true
      · rw [if_pos hu]
        simp [hu, htag']
      · have hu' : (b.userId == u) = false := by simpa using hu
        rw [if_neg (by simp [hu'])]
        simp [hu', h]
    · rw [addBanRecord_eq_of_present cfg m b existing hWF htag' hget]
      have hne : (b.userId == u) = false := by
        by_cases hc : (b.userId == u) = true
        · have hc' : b.userId = u := by simpa [beq_iff_eq] using hc
          rw [hc'] at hget
          rw [hget] at h
          exact absurd h (by simp)
        · simpa using hc
      simp [hne, h]

lemma foldBans_assocGet (cfg : ServerConfig) (u : String) :
    ∀ (bans : List RemoteBan) (m : List (String × BanInfo)), WFunion m →
      WFunion (bans.foldl (addBanRecord cfg) m) ∧
      (∀ e, assocGet m u = some e →
        assocGet (bans.foldl (addBanRecord cfg) m) u = some e) ∧
      (assocGet m u = none →
        assocGet (bans.foldl (addBanRecord cfg) m) u =
          (bans.find? (fun b => b.userId == u && !jsReasonTagged b.reason)).map
            (mkEntry cfg)) := by
  intro bans
  induction bans with
  | nil =>
    intro m hWF
    refine ⟨hWF, fun e h => by simpa using h, fun h => by simpa using h⟩
  | cons b rest ih =>
    intro m hWF
    have hWF' := WFunion_addBanRecord cfg m b hWF
    have ih' := ih (addBanRecord cfg m b) hWF'
    refine ⟨by simpa using ih'.1, ?_, ?_⟩
    · intro e h
      simp only [List.foldl_cons]
      exact ih'.2.1 e (addBanRecord_assocGet_some cfg m b u e hWF h)
    · intro h
      simp only [List.foldl_cons]
      have hstep := addBanRecord_assocGet_none cfg m b u hWF h
      by_cases hmatch : (b.userId == u && !jsReasonTagged b.reason) = true
      · rw [if_pos hmatch] at hstep
        have hfind : List.find? (fun b => b.userId == u && !jsReasonTagged b.reason)
            (b :: rest) = some b := by
          simp [List.find?, hmatch]
        rw [hfind]
        simpa using ih'.2.1 (mkEntry cfg b) hstep
      · have hmatch' : (b.userId == u && !jsReasonTagged b.reason) = false := by
          simpa using hmatch
        rw [if_neg (by simp [hmatch'])] at hstep
        have hfind : List.find? (fun b => b.userId == u && !jsReasonTagged b.reason)
            (b :: rest) = List.find?
              (fun b => b.userId == u && !jsReasonTagged b.reason) rest := by
          simp [List.find?, hmatch']
        rw [hfind]
        exact ih'.2.2 hstep

lemma collectServerBans_eq_fold (w : World) (m : List (String × BanInfo))
    (cfg : ServerConfig) :
    collectServerBans w m cfg = (guildRecordsFor w cfg).foldl (addBanRecord cfg) m := by
  unfold collectServerBans guildRecordsFor
  rcases hg : guildLookup w cfg.id with _ | g
  · simp
  · by_cases hl : g.listBansFails = true
    · simp [hl]
    · have hl' : g.listBansFails = false := by simpa using hl
      simp [hl']

lemma foldServers_assocGet (w : World) (u : String) :
    ∀ (servers : List ServerConfig) (m : List (String × BanInfo)), WFunion m →
      WFunion (servers.foldl (collectServerBans w) m) ∧
      (∀ e, assocGet m u = some e →
        assocGet (servers.foldl (collectServerBans w) m) u = some e) ∧
      (assocGet m u = none →
        assocGet (servers.foldl (collectServerBans w) m) u =
          (servers.findSome? (fun cfg =>
            ((guildRecordsFor w cfg).find?
              (fun b => b.userId == u && !jsReasonTagged b.reason)).map
              (fun b => (cfg, b)))).map (fun p => mkEntry p.1 p.2)) := by
  intro servers
  induction servers with
  | nil =>
    intro m hWF
    refine ⟨hWF, fun e h => by simpa using h, fun h => by simpa using h⟩
  | cons cfg rest ih =>
    intro m hWF
    have hbans := foldBans_assocGet cfg u (guildRecordsFor w cfg) m hWF
    have hWF' : WFunion (collectServerBans w m cfg) := by
      rw [collectServerBans_eq_fold]
      exact hbans.1
    have ih' := ih (collectServerBans w m cfg) hWF'
    refine ⟨by simpa using ih'.1, ?_, ?_⟩
    · intro e h
      simp only [List.foldl_cons]
      refine ih'.2.1 e ?_
      rw [collectServerBans_eq_fold]
      exact hbans.2.1 e h
    · intro h
      simp only [List.foldl_cons]
      have hstep := hbans.2.2 h
      rcases hfind : (guildRecordsFor w cfg).find?
          (fun b => b.userId == u && !jsReasonTagged b.reason) with _ | b
      · rw [hfind] at hstep
        simp at hstep
        have hmid : assocGet (collectServerBans w m cfg) u = none := by
          rw [collectServerBans_eq_fold]
          exact hstep
        have hfs : List.findSome? (fun cfg =>
            ((guildRecordsFor w cfg).find?
              (fun b => b.userId == u && !jsReasonTagged b.reason)).map
              (fun b => (cfg, b))) (cfg :: rest) =
            List.findSome? (fun cfg =>
              ((guildRecordsFor w cfg).find?
                (fun b => b.userId == u && !jsReasonTagged b.reason)).map
                (fun b => (cfg, b))) rest := by
          simp [List.findSome?_cons, hfind]
        rw [hfs]
        exact ih'.2.2 hmid
      · rw [hfind] at hstep
        simp at hstep
        have hmid : assocGet (collectServerBans w m cfg) u = some (mkEntry cfg b) := by
          rw [collectServerBans_eq_fold]
          exact hstep
        have hfs : List.findSome? (fun cfg =>
            ((guildRecordsFor w cfg).find?
              (fun b => b.userId == u && !jsReasonTagged b.reason)).map
              (fun b => (cfg, b))) (cfg :: rest) = some (cfg, b) := by
          simp [List.findSome?_cons, hfind]
        rw [hfs]
        simpa using ih'.2.1 (mkEntry cfg b) hmid

/-- C6: the `allBans` union keeps exactly one entry per subject, and it is
built from the first non-sync-tagged record observed for that subject in
registry scan order: the lookup for any subject equals the entry made from
its first-seen record, and later duplicates never overwrite it (subjects
with no record are absent). -/
theorem claim6_first_seen_wins (w : World) (u : String) :
    assocGet (collectAllBans w) u =
      (firstRecordFor w u).map (fun p => mkEntry p.1 p.2) ∧
    (collectAllBans w).countP (fun p => p.fst == u) =
      (if (firstRecordFor w u).isSome then 1 else 0) := by
  have h := foldServers_assocGet w u w.servers [] WFunion_nil
  have hget : assocGet (collectAllBans w) u =
      (firstRecordFor w u).map (fun p => mkEntry p.1 p.2) := by
    rw [collectAllBans, firstRecordFor]
    exact h.2.2 (by simp [assocGet])
  refine ⟨hget, ?_⟩
  have hcnt := h.1.2 u
  rw [collectAllBans] at hget
  rw [collectAllBans, hcnt, hget]
  simp [Option.isSome_map]

lemma foldBans_filter_untagged (cfg : ServerConfig) :
    ∀ (bans : List RemoteBan) (m : List (String × BanInfo)),
      bans.foldl (addBanRecord cfg) m =
        (bans.filter (fun b => !jsReasonTagged b.reason)).foldl (addBanRecord cfg) m := by
  intro bans
  induction bans with
  | nil => intro m; rfl
  | cons b rest ih =>
    intro m
    by_cases htag : jsReasonTagged b.reason = true
    · have hf : (b :: rest).filter (fun b => !jsReasonTagged b.reason)
          = rest.filter (fun b => !jsReasonTagged b.reason) := by
        simp [List.filter_cons, htag]
      rw [hf, List.foldl_cons, addBanRecord_eq_of_tagged cfg m b htag]
      exact ih m
    · have htag' : jsReasonTagged b.reason = false := by simpa using htag
      have hf : (b :: rest).filter (fun b => !jsReasonTagged b.reason)
          = b :: rest.filter (fun b => !jsReasonTagged b.reason) := by
        simp [List.filter_cons, htag']
      rw [hf, List.foldl_cons, List.foldl_cons]
      exact ih (addBanRecord cfg m b)

lemma assocGet_map_values {α β : Type} (f : α → β) :
    ∀ (m : List (String × α)) (k : String),
      assocGet (m.map (fun p => (p.fst, f p.snd))) k = (assocGet m k).map f := by
  intro m
  induction m with
  | nil => intro k; simp [assocGet]
  | cons p rest ih =>
    intro k
    by_cases hp : (p.fst == k) = true
    · simp [assocGet, hp]
    · have hp' : (p.fst == k) = false := by simpa using hp
      simp [assocGet, hp', ih]

lemma guildLookup_filterTagged (w : World) (id : String) :
    guildLookup (filterTaggedWorld w) id = (guildLookup w id).map
      (fun g => { g with bans := g.bans.filter (fun b => !jsReasonTagged b.reason) }) := by
  unfold guildLookup filterTaggedWorld
  exact assocGet_map_values
    (fun g => { g with bans := g.bans.filter (fun b => !jsReasonTagged b.reason) })
    w.guilds id

lemma collectServerBans_filterTagged (w : World) (m : List (String × BanInfo))
    (cfg : ServerConfig) :
    collectServerBans (filterTaggedWorld w) m cfg = collectServerBans w m cfg := by
  unfold collectServerBans
  rw [guildLookup_filterTagged]
  rcases hg : guildLookup w cfg.id with _ | g
  · simp
  · by_cases hl : g.listBansFails = true
    · simp [hl]
    · have hl' : g.listBansFails = false := by simpa using hl
      simp [hl']
      exact (foldBans_filter_untagged cfg g.bans m).symm

lemma foldServers_filterTagged (w : World) :
    ∀ (servers : List ServerConfig) (m : List (String × BanInfo)),
      servers.foldl (collectServerBans (filterTaggedWorld w)) m =
        servers.foldl (collectServerBans w) m := by
  intro servers
  induction servers with
  | nil => intro m; rfl
  | cons cfg rest ih =>
    intro m
    rw [List.foldl_cons, List.foldl_cons, collectServerBans_filterTagged]
    exact ih (collectServerBans w m cfg)

/-- C5: sync-tagged ban records are excluded from the reconciliation union:
the union built over any world equals the union built after deleting every
sync-tagged record from every guild's ban list, and no entry of the union
(each entry being a propagation origin of the pass) carries a sync-tagged
reason. -/
theorem claim5_tagged_never_origin (w : World) :
    collectAllBans w = collectAllBans (filterTaggedWorld w) ∧
    (collectAllBans w).all (fun p => !strStartsWith p.snd.reason syncTag) = true := by
  constructor
  · unfold collectAllBans
    have hserv : (filterTaggedWorld w).servers = w.servers := rfl
    rw [hserv]
    exact (foldServers_filterTagged w w.servers []).symm
  · have h := (foldServers_assocGet w "" w.servers [] WFunion_nil).1
    rw [List.all_eq_true]
    intro p hp
    have := h.1 p hp
    simp [this.2]

end BanSync
